import Mathlib

/-!
# Verification of the SwiftIO HAL resource-lifecycle contract

The repository is a declarations-only hardware abstraction layer: C headers
giving prototypes and documented contracts for peripheral handles (GPIO, UART,
timers, counters) and OS primitives (tasks, message queues, mutexes,
semaphores).  No function bodies exist in the source, so each behaviour below
is a shallow model of the contract stated by the header doc comments and the
specification, against which the claims are settled.
-/

/-- POSIX errno values used by the header contracts (`-EBUSY`, `-ENOMSG`, ...). -/
def EPERM : Int := 1
def EIOERR : Int := 5
def EAGAIN : Int := 11
def EBUSY : Int := 16
def EINVAL : Int := 22
def ENOMSG : Int := 42

/-! ## Device registry (claim C1)

Modelled from the spec: the process-wide Device Registry holds the set of open
(class, id) pairs; `open` on a held pair fails with `Busy`, `close` releases
the pair.  No implementation is present in the source (`swifthal_gpio_open`
and friends are prototypes only), so the registry is modelled from the spec's
Device Registry contract (§4.1). -/
structure DeviceRegistry where
  openIds : List (Nat × Nat)
deriving DecidableEq, Repr

/-- Modelled from the spec: `open(class, id)` — rejects double-open of a held
id with `Busy` (-EBUSY), otherwise records the pair and returns the new
registry state (the handle). -/
def registry_open (r : DeviceRegistry) (cls id : Nat) : Except Int DeviceRegistry :=
  if (cls, id) ∈ r.openIds then
    Except.error (-EBUSY)
  else
    Except.ok ⟨(cls, id) :: r.openIds⟩

/-- Modelled from the spec: `close(handle)` releases the (class, id) slot back
to the registry. -/
def registry_close (r : DeviceRegistry) (cls id : Nat) : DeviceRegistry :=
  ⟨r.openIds.erase (cls, id)⟩

/-- Registry states reachable from the initial (empty) registry by open/close. -/
inductive RegistryReachable : DeviceRegistry → Prop
  | init : RegistryReachable ⟨[]⟩
  | openStep {r r' : DeviceRegistry} {c i : Nat} :
      RegistryReachable r → registry_open r c i = Except.ok r' → RegistryReachable r'
  | closeStep {r : DeviceRegistry} (c i : Nat) :
      RegistryReachable r → RegistryReachable (registry_close r c i)

/-- In a duplicate-free list every element occurs at most once. -/
lemma countP_le_one_of_nodup (l : List (Nat × Nat)) (h : l.Nodup) (a : Nat × Nat) :
    l.countP (fun p => decide (p = a)) ≤ 1 := by
  induction l with
  | nil => simp
  | cons x xs ih =>
      rcases List.nodup_cons.mp h with ⟨hx, hxs⟩
      by_cases hxa : x = a
      · subst hxa
        have hz : xs.countP (fun p => decide (p = x)) = 0 := by
          rw [List.countP_eq_zero]
          intro p hp
          simp only [decide_eq_true_eq]
          intro hpx
          exact hx (hpx ▸ hp)
        simp [List.countP_cons, hz]
      · simp [List.countP_cons, hxa]
        exact ih hxs

lemma registryReachable_nodup {r : DeviceRegistry} (h : RegistryReachable r) :
    r.openIds.Nodup := by
  induction h with
  | init => simp
  | openStep hr hop ih =>
      rename_i r r' c i
      unfold registry_open at hop
      by_cases hmem : (c, i) ∈ r.openIds
      · simp [hmem] at hop
      · simp [hmem] at hop
        subst hop
        exact List.nodup_cons.mpr ⟨hmem, ih⟩
  | closeStep c i hr ih =>
      exact ih.erase _

/-- C1: for every reachable registry state and every (class, id) pair, at most
one live handle exists for the pair; `open` on an already-open pair fails with
`Busy` (-EBUSY); and after `close` releases the pair, a subsequent `open` on
the same pair succeeds. -/
theorem swifthal_open_exclusive (r : DeviceRegistry) (c i : Nat)
    (hr : RegistryReachable r) :
    r.openIds.countP (fun p => decide (p = (c, i))) ≤ 1 ∧
    ((c, i) ∈ r.openIds → registry_open r c i = Except.error (-EBUSY)) ∧
    registry_open (registry_close r c i) c i =
      Except.ok ⟨(c, i) :: (registry_close r c i).openIds⟩ := by
  have hnd := registryReachable_nodup hr
  refine ⟨countP_le_one_of_nodup _ hnd _, ?_, ?_⟩
  · intro hmem
    simp [registry_open, hmem]
  · have hnot : (c, i) ∉ (registry_close r c i).openIds :=
      hnd.not_mem_erase
    simp [registry_open, hnot]

/-- C1 witness: in the concrete registry holding only (class 0, id 1) —
reachable by a single `open` from the empty registry — the pair has exactly
one live handle, reopening it fails with `Busy`, and open-after-close
succeeds. -/
theorem swifthal_open_exclusive_witness :
    (DeviceRegistry.mk [(0, 1)]).openIds.countP (fun p => decide (p = (0, 1))) ≤ 1 ∧
    ((0, 1) ∈ (DeviceRegistry.mk [(0, 1)]).openIds →
      registry_open ⟨[(0, 1)]⟩ 0 1 = Except.error (-EBUSY)) ∧
    registry_open (registry_close ⟨[(0, 1)]⟩ 0 1) 0 1 =
      Except.ok ⟨(0, 1) :: (registry_close ⟨[(0, 1)]⟩ 0 1).openIds⟩ :=
  swifthal_open_exclusive ⟨[(0, 1)]⟩ 0 1
    (@RegistryReachable.openStep ⟨[]⟩ ⟨[(0, 1)]⟩ 0 1 RegistryReachable.init rfl)

/-! ## Message queue (claim C2)

Modelled from the spec: `swifthal_os_mq_*` are prototypes only; the behaviour
is modelled from the `swift_os.h` doc comments — a fixed-depth FIFO ring
buffer; `swifthal_os_mq_send` returns 0 on success, -ENOMSG when it returns
without waiting (full queue, `timeout = 0`) or when the queue is purged while
the sender waits, and -EAGAIN when a positive waiting period times out;
`swifthal_os_mq_purge` discards all queued messages and unblocks every thread
blocked waiting to send with -ENOMSG. -/
structure MsgQueue where
  depth : Nat
  msgs : List Nat
  blockedSenders : List Nat
deriving DecidableEq, Repr

/-- Outcome of a `send` call: completed immediately with a state and a return
code, or the calling thread blocked waiting for space. -/
inductive MqSendResult
  | done (code : Int) (q : MsgQueue)
  | blocked (q : MsgQueue)
deriving DecidableEq, Repr

/-- Modelled from the spec: `swifthal_os_mq_send(mq, data, timeout)`. -/
def swifthal_os_mq_send (q : MsgQueue) (tid : Nat) (data : Nat) (timeout : Int) :
    MqSendResult :=
  if q.msgs.length < q.depth then
    MqSendResult.done 0 { q with msgs := q.msgs ++ [data] }
  else if timeout = 0 then
    MqSendResult.done (-ENOMSG) q
  else
    MqSendResult.blocked { q with blockedSenders := q.blockedSenders ++ [tid] }

/-- Modelled from the spec: `swifthal_os_mq_purge(mq)` — discards all queued
messages; every thread blocked waiting to send is unblocked and sees -ENOMSG.
Returns the purged queue together with the (thread, return code) list of the
woken senders. -/
def swifthal_os_mq_purge (q : MsgQueue) : MsgQueue × List (Nat × Int) :=
  ({ q with msgs := [], blockedSenders := [] },
   q.blockedSenders.map (fun t => (t, -ENOMSG)))

/-- Fill a queue by sending the given messages in order (all from thread 0
with `timeout = 0`), keeping only the successfully accepted state. -/
def mq_send_all (q : MsgQueue) : List Nat → MsgQueue
  | [] => q
  | d :: ds =>
      match swifthal_os_mq_send q 0 d 0 with
      | MqSendResult.done _ q' => mq_send_all q' ds
      | MqSendResult.blocked q' => mq_send_all q' ds

lemma mq_send_all_accepts (q : MsgQueue) (ds : List Nat)
    (h : q.msgs.length + ds.length ≤ q.depth) :
    mq_send_all q ds = { q with msgs := q.msgs ++ ds } := by
  induction ds generalizing q with
  | nil => simp [mq_send_all]
  | cons d ds ih =>
      have hlt : q.msgs.length < q.depth := by
        simp only [List.length_cons] at h
        omega
      have hstep : swifthal_os_mq_send q 0 d 0 =
          MqSendResult.done 0 { q with msgs := q.msgs ++ [d] } := by
        simp [swifthal_os_mq_send, hlt]
      have hrec := ih { q with msgs := q.msgs ++ [d] }
        (by simp only [List.length_append, List.length_cons] at h ⊢; simp; omega)
      simp [mq_send_all, hstep, hrec]

/-- C2 counterexample: for a queue of depth 3, after 3 successful sends that
fill it, a 4th send with `timeout = 0` returns -ENOMSG (`NoMessage`), which is
neither -EAGAIN (`Timeout`) nor -EBUSY (`Busy`) — contrary to the claim that
the failure code is `Timeout`/`Busy`. -/
theorem swifthal_os_mq_send_full_counterexample :
    (mq_send_all ⟨3, [], []⟩ [10, 11, 12]).msgs.length = 3 ∧
    swifthal_os_mq_send (mq_send_all ⟨3, [], []⟩ [10, 11, 12]) 7 13 0 =
      MqSendResult.done (-ENOMSG) (mq_send_all ⟨3, [], []⟩ [10, 11, 12]) ∧
    (-ENOMSG : Int) ≠ -EAGAIN ∧ (-ENOMSG : Int) ≠ -EBUSY := by
  decide

/-- C2 (amended): for every message queue created with depth n, after n
successful sends that fill the queue, a further send with `timeout = 0` fails
with `NoMessage` (-ENOMSG); a send with infinite timeout blocks, and `purge`
unblocks every thread blocked waiting to send, each seeing -ENOMSG. -/
theorem swifthal_os_mq_full_send_spec (n tid d w : Nat) (ds : List Nat)
    (hlen : ds.length = n) :
    (mq_send_all ⟨n, [], []⟩ ds).msgs = ds ∧
    swifthal_os_mq_send (mq_send_all ⟨n, [], []⟩ ds) tid d 0 =
      MqSendResult.done (-ENOMSG) (mq_send_all ⟨n, [], []⟩ ds) ∧
    (∀ q2 : MsgQueue,
      swifthal_os_mq_send (mq_send_all ⟨n, [], []⟩ ds) w d (-1) =
        MqSendResult.blocked q2 →
      (w, -ENOMSG) ∈ (swifthal_os_mq_purge q2).2) ∧
    (∀ p : MsgQueue,
      (swifthal_os_mq_purge p).2 = p.blockedSenders.map (fun t => (t, -ENOMSG)) ∧
      (swifthal_os_mq_purge p).1.blockedSenders = []) := by
  have hq : mq_send_all ⟨n, [], []⟩ ds = ⟨n, ds, []⟩ := by
    have := mq_send_all_accepts ⟨n, [], []⟩ ds (by simp [hlen])
    simpa using this
  have hfull : ¬ (ds.length < n) := by omega
  refine ⟨by simp [hq], ?_, ?_, ?_⟩
  · simp [hq, swifthal_os_mq_send, hfull]
  · intro q2 hblk
    simp [hq, swifthal_os_mq_send, hfull] at hblk
    subst hblk
    simp [swifthal_os_mq_purge]
  · intro p
    exact ⟨rfl, rfl⟩

/-- C2 witness: the amended behaviour at depth 3 with messages [10, 11, 12]:
the queue is full, the 4th non-blocking send fails with -ENOMSG, and purge
wakes the blocked sender (thread 7) with -ENOMSG. -/
theorem swifthal_os_mq_full_send_spec_witness :
    (mq_send_all ⟨3, [], []⟩ [10, 11, 12]).msgs = [10, 11, 12] ∧
    swifthal_os_mq_send (mq_send_all ⟨3, [], []⟩ [10, 11, 12]) 5 13 0 =
      MqSendResult.done (-ENOMSG) (mq_send_all ⟨3, [], []⟩ [10, 11, 12]) ∧
    (∀ q2 : MsgQueue,
      swifthal_os_mq_send (mq_send_all ⟨3, [], []⟩ [10, 11, 12]) 7 13 (-1) =
        MqSendResult.blocked q2 →
      (7, -ENOMSG) ∈ (swifthal_os_mq_purge q2).2) ∧
    (∀ p : MsgQueue,
      (swifthal_os_mq_purge p).2 = p.blockedSenders.map (fun t => (t, -ENOMSG)) ∧
      (swifthal_os_mq_purge p).1.blockedSenders = []) :=
  swifthal_os_mq_full_send_spec 3 5 13 7 [10, 11, 12] rfl

/-! ## Mutex (claim C3)

Modelled from the spec: `swifthal_os_mutex_lock`/`unlock` are prototypes only;
the behaviour is modelled from the `swift_os.h` doc comments — a recursive
mutex with an owner and a lock count: a thread may relock a mutex it already
holds (completes immediately, lock count + 1); `lock` with `timeout = 0` on a
mutex held by another thread returns -EBUSY without waiting; `unlock` returns
-EPERM when the calling thread does not own the mutex and -EINVAL when the
mutex is not locked. -/
structure Mutex where
  owner : Option Nat
  lockCount : Nat
deriving DecidableEq, Repr

/-- Outcome of a `lock` call: completed immediately with a return code and a
state, or the calling thread blocked waiting for the owner. -/
inductive MutexLockResult
  | done (code : Int) (m : Mutex)
  | blocked (m : Mutex)
deriving DecidableEq, Repr

/-- Modelled from the spec: `swifthal_os_mutex_lock(mutex, timeout)` called by
thread `tid`. -/
def swifthal_os_mutex_lock (m : Mutex) (tid : Nat) (timeout : Int) :
    MutexLockResult :=
  match m.owner with
  | none => MutexLockResult.done 0 ⟨some tid, 1⟩
  | some o =>
      if o = tid then
        MutexLockResult.done 0 ⟨some o, m.lockCount + 1⟩
      else if timeout = 0 then
        MutexLockResult.done (-EBUSY) m
      else
        MutexLockResult.blocked m

/-- Modelled from the spec: `swifthal_os_mutex_unlock(mutex)` called by thread
`tid`. -/
def swifthal_os_mutex_unlock (m : Mutex) (tid : Nat) : Int × Mutex :=
  match m.owner with
  | none => (-EINVAL, m)
  | some o =>
      if o ≠ tid then
        (-EPERM, m)
      else if m.lockCount ≤ 1 then
        (0, ⟨none, 0⟩)
      else
        (0, ⟨some o, m.lockCount - 1⟩)

/-- C3: a `lock` with `timeout = 0` by the thread that already holds the mutex
succeeds immediately and increases the lock (recursion) count by exactly one;
an `unlock` by a thread that does not own the held mutex fails with
`PermissionDenied` (-EPERM) and leaves the mutex state unchanged. -/
theorem swifthal_os_mutex_recursive_owner (m : Mutex) (t u : Nat)
    (hown : m.owner = some t) (hu : u ≠ t) :
    swifthal_os_mutex_lock m t 0 =
      MutexLockResult.done 0 ⟨some t, m.lockCount + 1⟩ ∧
    swifthal_os_mutex_unlock m u = (-EPERM, m) := by
  constructor
  · simp [swifthal_os_mutex_lock, hown]
  · simp [swifthal_os_mutex_unlock, hown, Ne.symm hu]

/-- C3 witness: for a mutex held once by thread 2, a relock by thread 2 with
`timeout = 0` succeeds with lock count 2, and an unlock by thread 9 fails with
-EPERM leaving the state unchanged. -/
theorem swifthal_os_mutex_recursive_owner_witness :
    swifthal_os_mutex_lock ⟨some 2, 1⟩ 2 0 =
      MutexLockResult.done 0 ⟨some 2, 2⟩ ∧
    swifthal_os_mutex_unlock ⟨some 2, 1⟩ 9 = (-EPERM, ⟨some 2, 1⟩) :=
  swifthal_os_mutex_recursive_owner ⟨some 2, 1⟩ 2 9 rfl (by decide)

/-! ## Timer (claims C4, C7, C10)

Modelled from the spec: the `swifthal_timer_*` functions are prototypes only;
the behaviour is modelled from the `swift_timer.h` doc comments and the spec's
timer state machine — `start(type, period)` arms the timer; a periodic timer
re-arms automatically on expiry; a oneshot timer fires once and returns to the
open (not running) state; `status_get` returns the number of expiries since
the status was last read and resets it to zero; `remaining_get` returns the
milliseconds before the next expiry of a running timer and zero otherwise.
Time is discrete in milliseconds: `timer_tick` advances one millisecond. -/
inductive swift_timer_type
  | oneshot
  | period
deriving DecidableEq, Repr

/-- An open timer: whether it is running, its trigger type, its period (ms),
the accumulated expiry count since the last status read, and the milliseconds
elapsed since it was armed or since its last expiry. -/
structure Timer where
  running : Bool
  ttype : swift_timer_type
  period : Nat
  statusCount : Nat
  elapsed : Nat
deriving DecidableEq, Repr

/-- Modelled from the spec: a freshly opened timer (state `Open`, not
running). -/
def swifthal_timer_open : Timer := ⟨false, swift_timer_type.oneshot, 0, 0, 0⟩

/-- Modelled from the spec: `swifthal_timer_start(timer, type, period)` arms
the timer for the given type and period and resets its bookkeeping. -/
def swifthal_timer_start (t : Timer) (ty : swift_timer_type) (period : Int) :
    Int × Timer :=
  if period ≤ 0 then
    (-EINVAL, t)
  else
    (0, ⟨true, ty, period.toNat, 0, 0⟩)

/-- Modelled from the spec: `swifthal_timer_stop(timer)`. -/
def swifthal_timer_stop (t : Timer) : Int × Timer :=
  (0, { t with running := false, elapsed := 0 })

/-- Modelled from the spec: one millisecond elapses.  A running timer whose
period is reached expires: a periodic timer re-arms (elapsed returns to 0),
a oneshot timer returns to the open, not-running state; either way the
accumulated status count increases by one. -/
def timer_tick (t : Timer) : Timer :=
  if t.running then
    if t.period ≤ t.elapsed + 1 then
      match t.ttype with
      | swift_timer_type.period =>
          { t with elapsed := 0, statusCount := t.statusCount + 1 }
      | swift_timer_type.oneshot =>
          { t with running := false, elapsed := 0, statusCount := t.statusCount + 1 }
    else
      { t with elapsed := t.elapsed + 1 }
  else
    t

/-- `k` milliseconds elapse. -/
def timer_advance (t : Timer) : Nat → Timer
  | 0 => t
  | k + 1 => timer_tick (timer_advance t k)

/-- Modelled from the spec: `swifthal_timer_status_get(timer)` returns the
number of expiries since the last status read and resets the count to zero. -/
def swifthal_timer_status_get (t : Timer) : Nat × Timer :=
  (t.statusCount, { t with statusCount := 0 })

/-- Modelled from the spec: `swifthal_timer_remaining_get(timer)` — zero if
the timer is not running, otherwise the milliseconds remaining before the
next expiry. -/
def swifthal_timer_remaining_get (t : Timer) : Nat :=
  if t.running then t.period - t.elapsed else 0

/-- Closed form for advancing a running periodic timer: expiries accumulate
every `P` milliseconds and the phase is the remainder. -/
lemma timer_advance_periodic (P s e k : Nat) (hP : 0 < P) (he : e < P) :
    timer_advance ⟨true, swift_timer_type.period, P, s, e⟩ k =
      ⟨true, swift_timer_type.period, P, s + (e + k) / P, (e + k) % P⟩ := by
  induction k with
  | zero =>
      simp [timer_advance, Nat.div_eq_of_lt he, Nat.mod_eq_of_lt he]
  | succ k ih =>
      rw [timer_advance, ih]
      have hdm := Nat.div_add_mod (e + k) P
      have hr : (e + k) % P < P := Nat.mod_lt _ hP
      by_cases hfire : P ≤ (e + k) % P + 1
      · have hdvd : e + k + 1 = P * ((e + k) / P + 1) := by
          rw [Nat.mul_succ]; omega
        have hmod : (e + k + 1) % P = 0 := by
          rw [hdvd]; exact Nat.mul_mod_right _ _
        have hdiv : (e + k + 1) / P = (e + k) / P + 1 := by
          rw [hdvd]; exact Nat.mul_div_cancel_left _ hP
        simp [timer_tick, hfire, ← Nat.add_assoc, hdiv, hmod]
      · have huniq := (Nat.div_mod_unique hP
          (a := e + k + 1) (d := (e + k) / P) (c := (e + k) % P + 1)).mpr
          (by constructor <;> omega)
        simp [timer_tick, hfire, ← Nat.add_assoc, huniq.1, huniq.2]

/-- A timer that is not running is unaffected by the passage of time. -/
lemma timer_advance_not_running (t : Timer) (h : t.running = false) (k : Nat) :
    timer_advance t k = t := by
  induction k with
  | zero => rfl
  | succ k ih => rw [timer_advance, ih, timer_tick, h]; simp

/-- Closed form for advancing a running oneshot timer: it counts up to its
period, fires exactly once, and returns to the open (not running) state. -/
lemma timer_advance_oneshot (P s e k : Nat) (hP : 0 < P) (he : e < P) :
    timer_advance ⟨true, swift_timer_type.oneshot, P, s, e⟩ k =
      if e + k < P then ⟨true, swift_timer_type.oneshot, P, s, e + k⟩
      else ⟨false, swift_timer_type.oneshot, P, s + 1, 0⟩ := by
  induction k with
  | zero => simp [timer_advance, he]
  | succ k ih =>
      rw [timer_advance, ih]
      by_cases hk : e + k < P
      · by_cases hk1 : e + k + 1 < P
        · have : ¬ P ≤ e + k + 1 := by omega
          simp [hk, hk1, timer_tick, this, ← Nat.add_assoc]
        · have : P ≤ e + k + 1 := by omega
          simp [hk, hk1, timer_tick, this, ← Nat.add_assoc]
      · have hk1 : ¬ (e + (k + 1) < P) := by omega
        simp only [hk, if_false, hk1]
        rw [timer_tick]
        simp

/-- C4: `status_get` returns the number of expiries accumulated since the
status was last read and resets the count to zero; for a periodic timer armed
with period P, after T elapsed milliseconds it returns ⌊T/P⌋; an immediately
repeated `status_get` returns 0. -/
theorem swifthal_timer_status_get_spec (t0 : Timer) (P T : Nat) (hP : 0 < P) :
    (swifthal_timer_status_get
      (timer_advance (swifthal_timer_start t0 swift_timer_type.period (P : Int)).2 T)).1
      = T / P ∧
    (swifthal_timer_status_get
      (swifthal_timer_status_get
        (timer_advance (swifthal_timer_start t0 swift_timer_type.period (P : Int)).2 T)).2).1
      = 0 ∧
    (∀ u : Timer, (swifthal_timer_status_get u).1 = u.statusCount ∧
      (swifthal_timer_status_get u).2.statusCount = 0) := by
  have harmed : (swifthal_timer_start t0 swift_timer_type.period (P : Int)).2 =
      ⟨true, swift_timer_type.period, P, 0, 0⟩ := by
    have : ¬ ((P : Int) ≤ 0) := by exact_mod_cast Nat.not_le.mpr hP
    simp [swifthal_timer_start, this]
  rw [harmed, timer_advance_periodic P 0 0 T hP hP]
  exact ⟨by simp [swifthal_timer_status_get],
         by simp [swifthal_timer_status_get],
         fun u => ⟨rfl, rfl⟩⟩

/-- C4 witness: a periodic timer with period 10 read after 35 ms reports 3
expiries, and the repeated read reports 0. -/
theorem swifthal_timer_status_get_spec_witness :
    (swifthal_timer_status_get
      (timer_advance
        (swifthal_timer_start swifthal_timer_open swift_timer_type.period (10 : Int)).2 35)).1
      = 35 / 10 ∧
    (swifthal_timer_status_get
      (swifthal_timer_status_get
        (timer_advance
          (swifthal_timer_start swifthal_timer_open swift_timer_type.period (10 : Int)).2 35)).2).1
      = 0 ∧
    (∀ u : Timer, (swifthal_timer_status_get u).1 = u.statusCount ∧
      (swifthal_timer_status_get u).2.statusCount = 0) :=
  swifthal_timer_status_get_spec swifthal_timer_open 10 35 (by decide)

/-- C7: `start(type, period)` arms the timer (returns 0 and leaves it
running); a running periodic timer stays running across any passage of time
(it re-arms automatically after each expiry, so it can fire again without
another start); a running oneshot timer expires at most once, and once its
period has passed it is back in the open, not-running state with exactly one
accumulated expiry, and no further passage of time changes it. -/
theorem swifthal_timer_start_rearm_spec (t0 : Timer) (ty : swift_timer_type)
    (P s e k j : Nat) (hP : 0 < P) (he : e < P) :
    (swifthal_timer_start t0 ty (P : Int)).1 = 0 ∧
    (swifthal_timer_start t0 ty (P : Int)).2.running = true ∧
    (timer_advance ⟨true, swift_timer_type.period, P, s, e⟩ k).running = true ∧
    (timer_advance ⟨true, swift_timer_type.oneshot, P, s, e⟩ k).statusCount ≤ s + 1 ∧
    (P ≤ e + k →
      timer_advance ⟨true, swift_timer_type.oneshot, P, s, e⟩ k =
        ⟨false, swift_timer_type.oneshot, P, s + 1, 0⟩ ∧
      timer_advance (timer_advance ⟨true, swift_timer_type.oneshot, P, s, e⟩ k) j =
        timer_advance ⟨true, swift_timer_type.oneshot, P, s, e⟩ k) := by
  have hPz : ¬ ((P : Int) ≤ 0) := by exact_mod_cast Nat.not_le.mpr hP
  refine ⟨by simp [swifthal_timer_start, hPz], by simp [swifthal_timer_start, hPz],
          ?_, ?_, ?_⟩
  · rw [timer_advance_periodic P s e k hP he]
  · rw [timer_advance_oneshot P s e k hP he]
    by_cases hk : e + k < P <;> simp [hk]
  · intro hfired
    have hnk : ¬ (e + k < P) := by omega
    rw [timer_advance_oneshot P s e k hP he]
    simp only [hnk, if_false]
    exact ⟨trivial, timer_advance_not_running _ rfl j⟩

/-- C7 witness: starting a timer with period 5 arms it; a periodic timer is
still running 12 ms later; a oneshot timer advanced 12 ms has fired exactly
once, is back in the open state, and stays there for another 9 ms. -/
theorem swifthal_timer_start_rearm_spec_witness :
    (swifthal_timer_start swifthal_timer_open swift_timer_type.period (5 : Int)).1 = 0 ∧
    (swifthal_timer_start swifthal_timer_open swift_timer_type.period (5 : Int)).2.running
      = true ∧
    (timer_advance ⟨true, swift_timer_type.period, 5, 0, 0⟩ 12).running = true ∧
    (timer_advance ⟨true, swift_timer_type.oneshot, 5, 0, 0⟩ 12).statusCount ≤ 0 + 1 ∧
    (5 ≤ 0 + 12 →
      timer_advance ⟨true, swift_timer_type.oneshot, 5, 0, 0⟩ 12 =
        ⟨false, swift_timer_type.oneshot, 5, 0 + 1, 0⟩ ∧
      timer_advance (timer_advance ⟨true, swift_timer_type.oneshot, 5, 0, 0⟩ 12) 9 =
        timer_advance ⟨true, swift_timer_type.oneshot, 5, 0, 0⟩ 12) :=
  swifthal_timer_start_rearm_spec swifthal_timer_open swift_timer_type.period
    5 0 0 12 9 (by decide) (by decide)

/-- C10: `remaining_get` returns zero for every open timer that is not
running (no precondition: this includes the freshly opened timer with period
0); for a running timer (with a positive period and a phase within it) it
returns the milliseconds remaining before the next expiry: no expiry is
accumulated in strictly fewer milliseconds, and exactly that many
milliseconds later one more expiry has been accumulated. -/
theorem swifthal_timer_remaining_get_spec (t : Timer) (m : Nat) :
    (t.running = false → swifthal_timer_remaining_get t = 0) ∧
    (t.running = true → 0 < t.period → t.elapsed < t.period →
      swifthal_timer_remaining_get t = t.period - t.elapsed ∧
      (m < swifthal_timer_remaining_get t →
        (timer_advance t m).statusCount = t.statusCount) ∧
      (timer_advance t (swifthal_timer_remaining_get t)).statusCount
        = t.statusCount + 1) := by
  obtain ⟨r, ty, P, s, e⟩ := t
  constructor
  · intro hr
    subst hr
    simp [swifthal_timer_remaining_get]
  · intro hr hP he
    subst hr
    simp only at hP he
    have hrem : swifthal_timer_remaining_get ⟨true, ty, P, s, e⟩ = P - e := by
      simp [swifthal_timer_remaining_get]
    refine ⟨hrem, ?_, ?_⟩
    · intro hm
      rw [hrem] at hm
      cases ty
      · rw [timer_advance_oneshot P s e m hP he]
        have : e + m < P := by omega
        simp [this]
      · rw [timer_advance_periodic P s e m hP he]
        have : (e + m) / P = 0 := Nat.div_eq_of_lt (by omega)
        simp [this]
    · rw [hrem]
      cases ty
      · rw [timer_advance_oneshot P s e (P - e) hP he]
        have : ¬ (e + (P - e) < P) := by omega
        simp [this]
      · rw [timer_advance_periodic P s e (P - e) hP he]
        have hpe : e + (P - e) = P := by omega
        simp [hpe, Nat.div_self hP]

/-- C10 witness: the freshly opened timer (not running, period 0) reports
zero remaining; a running periodic timer with period 10 and 4 ms elapsed
reports 6 ms remaining, accumulates no expiry within 3 ms, and has
accumulated one more expiry after 6 ms. -/
theorem swifthal_timer_remaining_get_spec_witness :
    swifthal_timer_remaining_get swifthal_timer_open = 0 ∧
    (swifthal_timer_remaining_get ⟨true, swift_timer_type.period, 10, 2, 4⟩ = 10 - 4 ∧
      (3 < swifthal_timer_remaining_get ⟨true, swift_timer_type.period, 10, 2, 4⟩ →
        (timer_advance ⟨true, swift_timer_type.period, 10, 2, 4⟩ 3).statusCount = 2) ∧
      (timer_advance ⟨true, swift_timer_type.period, 10, 2, 4⟩
        (swifthal_timer_remaining_get ⟨true, swift_timer_type.period, 10, 2, 4⟩)).statusCount
        = 2 + 1) :=
  ⟨(swifthal_timer_remaining_get_spec swifthal_timer_open 0).1 rfl,
   (swifthal_timer_remaining_get_spec ⟨true, swift_timer_type.period, 10, 2, 4⟩ 3).2
     rfl (by decide) (by decide)⟩

/-! ## Hardware counter (claims C8, C9)

Modelled from the spec: the `swifthal_counter_*` functions are prototypes
only; the behaviour is modelled from the `SwiftHalWrapper.h` /
`swift_counter.h` doc comments — `start(mode)` begins counting edges from 0,
`read` returns the accumulated count, `clear` resets the count to 0, `stop`
halts counting; counting continues until `stop` is called. -/
inductive swift_counter_mode
  | rising_edge
  | both_edge
deriving DecidableEq, Repr

/-- A started or stopped edge counter. -/
structure Counter where
  running : Bool
  mode : swift_counter_mode
  count : Nat
deriving DecidableEq, Repr

/-- Modelled from the spec: `swifthal_counter_start(counter, mode)` — counting
starts from 0 and keeps going until `swifthal_counter_stop` is called. -/
def swifthal_counter_start (c : Counter) (mode : swift_counter_mode) :
    Int × Counter :=
  (0, ⟨true, mode, 0⟩)

/-- Modelled from the spec: `swifthal_counter_stop(counter)`. -/
def swifthal_counter_stop (c : Counter) : Int × Counter :=
  (0, { c with running := false })

/-- Modelled from the spec: `swifthal_counter_clear(counter)` — reset count
result to 0. -/
def swifthal_counter_clear (c : Counter) : Int × Counter :=
  (0, { c with count := 0 })

/-- Modelled from the spec: `swifthal_counter_read(counter)` — returns the
current accumulated count. -/
def swifthal_counter_read (c : Counter) : Int × Counter :=
  ((c.count : Int), c)

/-- An input edge arrives: a running counter accumulates it, a stopped counter
ignores it. -/
def counter_edge (c : Counter) : Counter :=
  if c.running then { c with count := c.count + 1 } else c

/-- C8: `clear` resets the accumulated count to zero and changes nothing else
(running flag and mode are untouched, so it does not stop counting); `read`
changes nothing; a running counter still accumulates edges immediately after
`clear` and after `read`; and `stop` is what halts counting — after it, edges
no longer accumulate. -/
theorem swifthal_counter_clear_frame (c : Counter) :
    ((swifthal_counter_clear c).2.running = c.running ∧
     (swifthal_counter_clear c).2.mode = c.mode ∧
     (swifthal_counter_clear c).2.count = 0) ∧
    (swifthal_counter_read c).2 = c ∧
    (c.running = true →
      (counter_edge (swifthal_counter_clear c).2).count = 1 ∧
      (counter_edge (swifthal_counter_read c).2).count = c.count + 1) ∧
    counter_edge (swifthal_counter_stop c).2 = (swifthal_counter_stop c).2 := by
  obtain ⟨r, m, n⟩ := c
  refine ⟨⟨rfl, rfl, rfl⟩, rfl, ?_, ?_⟩
  · intro hr
    subst hr
    exact ⟨rfl, rfl⟩
  · simp [swifthal_counter_stop, counter_edge]

/-- C8 witness: for a running rising-edge counter holding 5 counts, `clear`
leaves it running in the same mode with count 0, `read` leaves it unchanged,
an edge right after `clear`/`read` still counts, and after `stop` an edge does
not count. -/
theorem swifthal_counter_clear_frame_witness :
    ((swifthal_counter_clear ⟨true, swift_counter_mode.rising_edge, 5⟩).2.running = true ∧
     (swifthal_counter_clear ⟨true, swift_counter_mode.rising_edge, 5⟩).2.mode =
       swift_counter_mode.rising_edge ∧
     (swifthal_counter_clear ⟨true, swift_counter_mode.rising_edge, 5⟩).2.count = 0) ∧
    (swifthal_counter_read ⟨true, swift_counter_mode.rising_edge, 5⟩).2 =
      ⟨true, swift_counter_mode.rising_edge, 5⟩ ∧
    ((true : Bool) = true →
      (counter_edge
        (swifthal_counter_clear ⟨true, swift_counter_mode.rising_edge, 5⟩).2).count = 1 ∧
      (counter_edge
        (swifthal_counter_read ⟨true, swift_counter_mode.rising_edge, 5⟩).2).count = 5 + 1) ∧
    counter_edge (swifthal_counter_stop ⟨true, swift_counter_mode.rising_edge, 5⟩).2 =
      (swifthal_counter_stop ⟨true, swift_counter_mode.rising_edge, 5⟩).2 :=
  swifthal_counter_clear_frame ⟨true, swift_counter_mode.rising_edge, 5⟩

/-- Maximum value representable in 32 bits. -/
def UINT32_MAX : Nat := 4294967295

/-- The exact (unsaturated) microseconds-to-ticks conversion at `freq` Hz. -/
def counter_true_ticks (freq us : Nat) : Nat := us * freq / 1000000

/-- Modelled from the spec: `swifthal_counter_us_to_ticks(counter, us)` —
converted ticks, saturated if they exceed 32 bits. -/
def swifthal_counter_us_to_ticks (freq us : Nat) : Nat :=
  if UINT32_MAX < us * freq / 1000000 then UINT32_MAX else us * freq / 1000000

/-- C9: `us_to_ticks` returns the exact conversion when it fits in 32 bits and
the maximum 32-bit value when it does not; the result always fits in 32 bits
and is monotone in the microsecond argument, so it never wraps modulo 2^32. -/
theorem swifthal_counter_us_to_ticks_saturates (freq us v : Nat) :
    swifthal_counter_us_to_ticks freq us ≤ UINT32_MAX ∧
    (counter_true_ticks freq us ≤ UINT32_MAX →
      swifthal_counter_us_to_ticks freq us = counter_true_ticks freq us) ∧
    (UINT32_MAX < counter_true_ticks freq us →
      swifthal_counter_us_to_ticks freq us = UINT32_MAX) ∧
    (us ≤ v →
      swifthal_counter_us_to_ticks freq us ≤ swifthal_counter_us_to_ticks freq v) := by
  have hmin : ∀ w, swifthal_counter_us_to_ticks freq w =
      min (counter_true_ticks freq w) UINT32_MAX := by
    intro w
    unfold swifthal_counter_us_to_ticks counter_true_ticks
    split <;> omega
  refine ⟨by rw [hmin]; omega, by intro h; rw [hmin]; omega,
          by intro h; rw [hmin]; omega, ?_⟩
  intro huv
  have hmono : counter_true_ticks freq us ≤ counter_true_ticks freq v :=
    Nat.div_le_div_right (Nat.mul_le_mul_right _ huv)
  rw [hmin, hmin]
  omega

/-- C9 witness: at a 1 MHz counter clock, 100 µs converts exactly to 100
ticks; 4294967301 µs exceeds 32 bits of ticks and saturates to UINT32_MAX;
the conversion is monotone between the two. -/
theorem swifthal_counter_us_to_ticks_saturates_witness :
    swifthal_counter_us_to_ticks 1000000 100 ≤ UINT32_MAX ∧
    swifthal_counter_us_to_ticks 1000000 100 = counter_true_ticks 1000000 100 ∧
    swifthal_counter_us_to_ticks 1000000 4294967301 = UINT32_MAX ∧
    swifthal_counter_us_to_ticks 1000000 100 ≤
      swifthal_counter_us_to_ticks 1000000 4294967301 := by
  have h1 := swifthal_counter_us_to_ticks_saturates 1000000 100 4294967301
  have h2 := swifthal_counter_us_to_ticks_saturates 1000000 4294967301 0
  exact ⟨h1.1, h1.2.1 (by decide), h2.2.2.1 (by decide), h1.2.2.2 (by decide)⟩

/-! ## Thread priorities (claim C6)

Modelled from the spec: `swifthal_os_task_create` is a prototype only; its
doc comment in `swift_os.h` fixes the convention — the priority ranges from
-16 to 15, the smaller the value the higher the priority, a priority greater
than 0 gives a preemptive thread and a priority less than or equal to 0 a
cooperative thread. -/
def prio_valid (p : Int) : Bool := decide (-16 ≤ p) && decide (p ≤ 15)

/-- Modelled from the spec: "the smaller the value, the higher the
priority". -/
def prio_higher (a b : Int) : Bool := decide (a < b)

/-- The claim's reading: the priority of lower magnitude (absolute value) is
the higher priority. -/
def prio_higher_by_magnitude (a b : Int) : Bool := decide (a.natAbs < b.natAbs)

/-- A created thread as recorded by `swifthal_os_task_create`. -/
structure TaskInfo where
  prio : Int
  preemptive : Bool
deriving DecidableEq, Repr

/-- Modelled from the spec: `swifthal_os_task_create(name, fn, p1, p2, p3,
prio, stack_size)` — accepts priorities in [-16, 15]; a priority greater than
0 yields a preemptive thread, otherwise a cooperative one. -/
def swifthal_os_task_create (prio stack_size : Int) : Option TaskInfo :=
  if prio_valid prio then some ⟨prio, decide (0 < prio)⟩ else none

/-- Of two ready threads, the scheduler runs the higher-priority one: the one
with the smaller priority value. -/
def sched_prefers (a b : TaskInfo) : Bool := prio_higher a.prio b.prio

/-- C6 counterexample: priorities 1 and -2 are both accepted by task creation;
the claim's magnitude rule ranks 1 above -2 (|1| < |-2|), but under the
source convention (smaller value = higher priority) the thread with priority
-2 is the higher-priority one, so "lower magnitude = higher priority" is
false. -/
theorem swifthal_os_task_priority_counterexample :
    prio_valid 1 = true ∧ prio_valid (-2) = true ∧
    prio_higher_by_magnitude 1 (-2) = true ∧
    prio_higher 1 (-2) = false ∧
    prio_higher (-2) 1 = true ∧
    (∀ a b : TaskInfo, swifthal_os_task_create 1 1024 = some a →
      swifthal_os_task_create (-2) 1024 = some b →
      sched_prefers a b = false ∧ sched_prefers b a = true) := by
  refine ⟨rfl, rfl, rfl, rfl, rfl, ?_⟩
  intro a b ha hb
  simp [swifthal_os_task_create, prio_valid] at ha hb
  subst ha
  subst hb
  exact ⟨rfl, rfl⟩

/-- C6 (amended): for every pair of accepted thread priorities, the priority
with the smaller signed value is the higher priority (the scheduler prefers
it); and every thread created with a non-positive priority is cooperative
(not preemptive) while every thread created with a positive priority is
preemptive. -/
theorem swifthal_os_task_priority_spec (p q s u : Int) (a b : TaskInfo)
    (ha : swifthal_os_task_create p s = some a)
    (hb : swifthal_os_task_create q u = some b) :
    (-16 ≤ p ∧ p ≤ 15) ∧
    (a.preemptive = true ↔ 0 < p) ∧
    (a.preemptive = false ↔ p ≤ 0) ∧
    (sched_prefers a b = true ↔ p < q) := by
  unfold swifthal_os_task_create at ha hb
  by_cases hp : prio_valid p = true
  · by_cases hq : prio_valid q = true
    · simp [hp] at ha
      simp [hq] at hb
      subst ha
      subst hb
      refine ⟨?_, by simp, by simp, by simp [sched_prefers, prio_higher]⟩
      unfold prio_valid at hp
      simp at hp
      exact hp
    · simp [hq] at hb
  · simp [hp] at ha

/-- C6 witness: threads created with priorities -2 and 1 — the -2 thread is
cooperative and preferred by the scheduler, and -2 lies in [-16, 15]. -/
theorem swifthal_os_task_priority_spec_witness :
    ((-16 : Int) ≤ -2 ∧ (-2 : Int) ≤ 15) ∧
    ((TaskInfo.mk (-2) false).preemptive = true ↔ (0 : Int) < -2) ∧
    ((TaskInfo.mk (-2) false).preemptive = false ↔ (-2 : Int) ≤ 0) ∧
    (sched_prefers ⟨-2, false⟩ ⟨1, true⟩ = true ↔ (-2 : Int) < 1) :=
  swifthal_os_task_priority_spec (-2) 1 1024 1024 ⟨-2, false⟩ ⟨1, true⟩ rfl rfl

/-! ## UART read with timeout (claim C5)

Modelled from the spec: `swifthal_uart_read` is a prototype only; the
behaviour is modelled from the `swift_uart.h` doc comment and the spec's §4.4
contract — the read blocks until `length` bytes are available or `timeout`
milliseconds have elapsed; the return value is the number of bytes actually
read (non-negative, possibly zero on timeout) or a negative errno code on a
hard I/O failure.  The environment is the list of arrival times (ms) of the
incoming bytes. -/
def uart_bytes_by (arrivals : List Nat) (t : Nat) : Nat :=
  (arrivals.filter (fun a => decide (a ≤ t))).length

/-- Modelled from the spec: `swifthal_uart_read(uart, buf, length, timeout)`.
Returns (the time at which the call returns, the return code): the call
returns as soon as `len` bytes are available, else at `timeout`; a hardware
fault returns -EIO.  The return code on the normal path is the byte count
obtained by the return time. -/
def swifthal_uart_read (hwFault : Bool) (arrivals : List Nat) (len timeout : Nat) :
    Nat × Int :=
  if hwFault then
    (0, -EIOERR)
  else
    match (List.range (timeout + 1)).find?
        (fun t => decide (len ≤ uart_bytes_by arrivals t)) with
    | some t => (t, (len : Int))
    | none => (timeout, (uart_bytes_by arrivals timeout : Int))

lemma uart_bytes_by_mono (arrivals : List Nat) {t u : Nat} (h : t ≤ u) :
    uart_bytes_by arrivals t ≤ uart_bytes_by arrivals u := by
  induction arrivals with
  | nil => simp [uart_bytes_by]
  | cons a as ih =>
      by_cases hat : a ≤ t
      · have hau : a ≤ u := le_trans hat h
        simpa [uart_bytes_by, List.filter_cons, hat, hau] using ih
      · by_cases hau : a ≤ u
        · simp only [uart_bytes_by, List.filter_cons, hat, hau] at ih ⊢
          simp at ih ⊢
          omega
        · simpa [uart_bytes_by, List.filter_cons, hat, hau] using ih

/-- C5: a UART read with a positive timeout returns within `timeout`
milliseconds (whatever the byte arrivals and whether or not the hardware
faults); and a read that obtains zero bytes before the timeout expires
returns at the timeout with code 0 — a non-negative "timed out" status that
is not an error and is distinguishable from the (strictly negative) hard
I/O error return. -/
theorem swifthal_uart_read_timeout_spec (arrivals : List Nat) (len timeout : Nat)
    (htimeout : 0 < timeout) (hlen : 0 < len)
    (hzero : uart_bytes_by arrivals timeout = 0) :
    (∀ (f : Bool) (ar : List Nat) (l : Nat),
      (swifthal_uart_read f ar l timeout).1 ≤ timeout) ∧
    swifthal_uart_read false arrivals len timeout = (timeout, 0) ∧
    (0 : Int) ≤ (swifthal_uart_read false arrivals len timeout).2 ∧
    (swifthal_uart_read true arrivals len timeout).2 < 0 := by
  have hbound : ∀ (f : Bool) (ar : List Nat) (l : Nat),
      (swifthal_uart_read f ar l timeout).1 ≤ timeout := by
    intro f ar l
    unfold swifthal_uart_read
    cases f
    · cases hfind : (List.range (timeout + 1)).find?
          (fun t => decide (l ≤ uart_bytes_by ar t)) with
      | none => simp [hfind]
      | some t =>
          have hmem := List.mem_of_find?_eq_some hfind
          have := List.mem_range.mp hmem
          simp [hfind]
          omega
    · simp
  have hnone : (List.range (timeout + 1)).find?
      (fun t => decide (len ≤ uart_bytes_by arrivals t)) = none := by
    rw [List.find?_eq_none]
    intro t hmem
    have ht : t ≤ timeout := by
      have := List.mem_range.mp hmem
      omega
    have hle : uart_bytes_by arrivals t ≤ 0 := hzero ▸ uart_bytes_by_mono arrivals ht
    simp only [decide_eq_true_eq]
    omega
  have hread : swifthal_uart_read false arrivals len timeout = (timeout, 0) := by
    unfold swifthal_uart_read
    simp [hnone, hzero]
  refine ⟨hbound, hread, by rw [hread], ?_⟩
  unfold swifthal_uart_read
  simp [EIOERR]

/-- C5 witness: with one byte arriving at 50 ms, a 4-byte read with a 20 ms
timeout returns at 20 ms with 0 bytes — a non-error status distinct from the
negative hard-error return. -/
theorem swifthal_uart_read_timeout_spec_witness :
    (∀ (f : Bool) (ar : List Nat) (l : Nat),
      (swifthal_uart_read f ar l 20).1 ≤ 20) ∧
    swifthal_uart_read false [50] 4 20 = (20, 0) ∧
    (0 : Int) ≤ (swifthal_uart_read false [50] 4 20).2 ∧
    (swifthal_uart_read true [50] 4 20).2 < 0 :=
  swifthal_uart_read_timeout_spec [50] 4 20 (by decide) (by decide) (by decide)
